import Mathlib

/-!
Verification of the solar-ephemeris core of `Sun.py` (class `Sun`).

The module is a direct Python port of Paul Schlyter's SUNRISET.C.  All
floating-point computations of the source are modelled over `ℝ`; Python 2
integer arithmetic (`__daysSince2000Jan0`) is modelled over `ℤ`, where on
the nonnegative operands that occur here Python's floor division agrees
with Lean's truncating `Int` division.  `math.acos`, whose domain is
`[-1, 1]` and which raises `ValueError` outside it, is modelled as an
`Option`-valued function.
-/

open Real

namespace Sun

/-! ### Calendar arithmetic -/

/-- `__daysSince2000Jan0(y, m, d)`:
`367*y - 7*(y + (m+9)/12)/4 + 275*m/9 + d - 730530` with integer division
(truncating; all dividends are nonnegative for calendar inputs, so this
agrees with Python 2's floor division). -/
def daysSince2000Jan0 (y m d : ℕ) : ℤ :=
  367 * (y : ℤ) - 7 * ((y : ℤ) + ((m : ℤ) + 9) / 12) / 4
    + 275 * (m : ℤ) / 9 + (d : ℤ) - 730530

/-- `calendar.isleap`: the Gregorian leap-year rule. -/
def isleap (y : ℕ) : Bool :=
  y % 4 == 0 && (y % 100 != 0 || y % 400 == 0)

/-- Length of a month in the Gregorian calendar (reference definition). -/
def monthLength (y : ℕ) : ℕ → ℕ
  | 1 => 31
  | 2 => if isleap y then 29 else 28
  | 3 => 31
  | 4 => 30
  | 5 => 31
  | 6 => 30
  | 7 => 31
  | 8 => 31
  | 9 => 30
  | 10 => 31
  | 11 => 30
  | 12 => 31
  | _ => 0

/-- Number of days of a Gregorian year (reference definition). -/
def daysInYear (y : ℕ) : ℕ := if isleap y then 366 else 365

/-- Day-of-year in the Gregorian calendar, `1` for January 1
(reference definition). -/
def dayOfYear (y m d : ℕ) : ℕ :=
  (((List.range (m - 1)).map fun i => monthLength y (i + 1)).sum) + d

/-- Reference definition of the Gregorian day count measured from
1999-12-31 ("2000 Jan 0.0"): `dayNumber 2000 1 1 = 1`, and by construction
each calendar date maps to its predecessor's value plus one (years are
accumulated via `daysInYear`, months via `monthLength`). -/
def dayNumber (y m d : ℕ) : ℤ :=
  if 2000 ≤ y then
    (((List.range (y - 2000)).map fun i => (daysInYear (2000 + i) : ℤ)).sum)
      + (dayOfYear y m d : ℤ)
  else
    -(((List.range (2000 - y)).map fun i => (daysInYear (y + i) : ℤ)).sum)
      + (dayOfYear y m d : ℤ)

/-! ### Angle utilities -/

/-- `__revolution(x) = x - 360 * math.floor(x / 360)`. -/
noncomputable def revolution (x : ℝ) : ℝ :=
  x - 360 * (⌊x / 360⌋ : ℝ)

/-- `__rev180(x) = x - 360 * math.floor(x / 360 + 0.5)`. -/
noncomputable def rev180 (x : ℝ) : ℝ :=
  x - 360 * (⌊x / 360 + 0.5⌋ : ℝ)

/-- `math.radians`. -/
noncomputable def radians (x : ℝ) : ℝ := x * (π / 180)

/-- `math.degrees`. -/
noncomputable def degrees (x : ℝ) : ℝ := x * (180 / π)

/-- `__sind`: sine of an angle given in degrees. -/
noncomputable def sind (x : ℝ) : ℝ := Real.sin (radians x)

/-- `__cosd`: cosine of an angle given in degrees. -/
noncomputable def cosd (x : ℝ) : ℝ := Real.cos (radians x)

/-- `math.atan2 y x`: the angle of the point `(x, y)`, in `(-π, π]`. -/
noncomputable def atan2 (y x : ℝ) : ℝ :=
  if 0 < x then Real.arctan (y / x)
  else if x < 0 then
    (if 0 ≤ y then Real.arctan (y / x) + π else Real.arctan (y / x) - π)
  else
    (if 0 < y then π / 2 else if y < 0 then -(π / 2) else 0)

/-- `__atan2d`: `math.degrees(math.atan2(y, x))`. -/
noncomputable def atan2d (y x : ℝ) : ℝ := degrees (atan2 y x)

/-- `__acosd`: `math.degrees(math.acos(x))`, with `none` modelling the
`ValueError` that `math.acos` raises outside `[-1, 1]`. -/
noncomputable def acosdOpt (x : ℝ) : Option ℝ :=
  if -1 ≤ x ∧ x ≤ 1 then some (degrees (Real.arccos x)) else none

/-- The value of `__acosd` on its domain. -/
noncomputable def acosd (x : ℝ) : ℝ := degrees (Real.arccos x)

/-! ### Range and periodicity of the angle reducers -/

theorem revolution_mem (x : ℝ) : 0 ≤ revolution x ∧ revolution x < 360 := by
  have h1 := Int.floor_le (x / 360)
  have h2 := Int.lt_floor_add_one (x / 360)
  unfold revolution
  constructor <;> [linarith; linarith]

theorem revolution_period (x : ℝ) (k : ℤ) :
    revolution (x + 360 * k) = revolution x := by
  unfold revolution
  have h : (x + 360 * (k : ℝ)) / 360 = x / 360 + (k : ℝ) := by
    field_simp
    ring
  rw [h, Int.floor_add_int]
  push_cast
  ring

theorem rev180_mem (x : ℝ) : -180 ≤ rev180 x ∧ rev180 x < 180 := by
  have h1 := Int.floor_le (x / 360 + 0.5)
  have h2 := Int.lt_floor_add_one (x / 360 + 0.5)
  unfold rev180
  constructor <;> [linarith; linarith]

theorem rev180_period (x : ℝ) (k : ℤ) :
    rev180 (x + 360 * k) = rev180 x := by
  unfold rev180
  have h : (x + 360 * (k : ℝ)) / 360 + 0.5 = (x / 360 + 0.5) + (k : ℝ) := by
    field_simp
    ring
  rw [h, Int.floor_add_int]
  push_cast
  ring

/-- On `[0, 360)` the reducer `__revolution` is the identity. -/
theorem revolution_eq_self {x : ℝ} (h0 : 0 ≤ x) (h1 : x < 360) :
    revolution x = x := by
  unfold revolution
  have : ⌊x / 360⌋ = 0 := by
    rw [Int.floor_eq_iff]
    push_cast
    constructor <;> [positivity; linarith]
  rw [this]
  norm_num

/-- On `[360, 720)` the reducer `__revolution` subtracts one revolution. -/
theorem revolution_eq_sub {x : ℝ} (h0 : 360 ≤ x) (h1 : x < 720) :
    revolution x = x - 360 := by
  unfold revolution
  have : ⌊x / 360⌋ = 1 := by
    rw [Int.floor_eq_iff]
    push_cast
    constructor <;> linarith
  rw [this]
  norm_num

/-! ### Orbital position model (`__sunpos`) -/

/-- Mean anomaly `M` of `__sunpos`. -/
noncomputable def sunpos_M (d : ℝ) : ℝ := revolution (356.0470 + 0.9856002585 * d)

/-- Argument of perihelion `w` of `__sunpos`. -/
noncomputable def sunpos_w (d : ℝ) : ℝ := 282.9404 + 4.70935e-5 * d

/-- Eccentricity `e` of `__sunpos`. -/
noncomputable def sunpos_e (d : ℝ) : ℝ := 0.016709 - 1.151e-9 * d

/-- Eccentric anomaly `E` of `__sunpos` (single-correction approximation). -/
noncomputable def sunpos_E (d : ℝ) : ℝ :=
  sunpos_M d + degrees (sunpos_e d) * sind (sunpos_M d)
    * (1 + sunpos_e d * cosd (sunpos_M d))

/-- Rectangular ecliptic coordinate `x` of `__sunpos`. -/
noncomputable def sunpos_x (d : ℝ) : ℝ := cosd (sunpos_E d) - sunpos_e d

/-- Rectangular ecliptic coordinate `y` of `__sunpos`. -/
noncomputable def sunpos_y (d : ℝ) : ℝ :=
  Real.sqrt (1 - sunpos_e d * sunpos_e d) * sind (sunpos_E d)

/-- Solar distance `r = math.hypot(x, y)` of `__sunpos`. -/
noncomputable def sunpos_r (d : ℝ) : ℝ :=
  Real.sqrt (sunpos_x d * sunpos_x d + sunpos_y d * sunpos_y d)

/-- True anomaly `v` of `__sunpos`. -/
noncomputable def sunpos_v (d : ℝ) : ℝ := atan2d (sunpos_y d) (sunpos_x d)

/-- `__sunpos(d)`: the Sun's ecliptic longitude and distance.  The
longitude is `v + w` followed by a single conditional subtraction of
360. -/
noncomputable def sunpos (d : ℝ) : ℝ × ℝ :=
  (if sunpos_v d + sunpos_w d ≥ 360 then sunpos_v d + sunpos_w d - 360
   else sunpos_v d + sunpos_w d,
   sunpos_r d)

/-! ### Equatorial transform (`__sunRADec`) -/

/-- Obliquity of the ecliptic, as recomputed in `__sunRADec`/`__daylen`. -/
noncomputable def obl_ecl (d : ℝ) : ℝ := 23.4393 - 3.563e-7 * d

/-- Ecliptic rectangular `x` of `__sunRADec` (unchanged by the rotation). -/
noncomputable def sunRADec_xe (d : ℝ) : ℝ := sunpos_r d * cosd ((sunpos d).1)

/-- Ecliptic rectangular `y` of `__sunRADec` before the rotation. -/
noncomputable def sunRADec_ye (d : ℝ) : ℝ := sunpos_r d * sind ((sunpos d).1)

/-- Equatorial rectangular `z` of `__sunRADec`. -/
noncomputable def sunRADec_z (d : ℝ) : ℝ := sunRADec_ye d * sind (obl_ecl d)

/-- Equatorial rectangular `y` of `__sunRADec` after the rotation. -/
noncomputable def sunRADec_y2 (d : ℝ) : ℝ := sunRADec_ye d * cosd (obl_ecl d)

/-- `__sunRADec(d)`: right ascension, declination and distance. -/
noncomputable def sunRADec (d : ℝ) : ℝ × ℝ × ℝ :=
  (atan2d (sunRADec_y2 d) (sunRADec_xe d),
   atan2d (sunRADec_z d)
     (Real.sqrt (sunRADec_xe d * sunRADec_xe d + sunRADec_y2 d * sunRADec_y2 d)),
   sunpos_r d)

/-! ### Sidereal time and the rise/set solver (`__GMST0`, `__sunriset`) -/

/-- `__GMST0(d)`. -/
noncomputable def GMST0 (d : ℝ) : ℝ :=
  revolution (180 + 356.0470 + 282.9404 + (0.9856002585 + 4.70935e-5) * d)

/-- The day number `d` used by `__sunriset` and `__daylen`:
`__daysSince2000Jan0(year, month, day) + 0.5 - lon/360`. -/
noncomputable def noonDays (y m day : ℕ) (lon : ℝ) : ℝ :=
  ((daysSince2000Jan0 y m day : ℤ) : ℝ) + 0.5 - lon / 360

/-- Local sidereal time of `__sunriset`. -/
noncomputable def sidtime (y m day : ℕ) (lon : ℝ) : ℝ :=
  revolution (GMST0 (noonDays y m day lon) + 180 + lon)

/-- Transit (south) hour `tsouth` of `__sunriset`, in hours UT. -/
noncomputable def tsouth (y m day : ℕ) (lon : ℝ) : ℝ :=
  12 - rev180 (sidtime y m day lon - (sunRADec (noonDays y m day lon)).1) / 15

/-- The Sun's declination `sdec` as used by `__sunriset`. -/
noncomputable def sdecl (y m day : ℕ) (lon : ℝ) : ℝ :=
  (sunRADec (noonDays y m day lon)).2.1

/-- The Sun's apparent radius `sradius = 0.2666 / sr` of `__sunriset`. -/
noncomputable def sradius (y m day : ℕ) (lon : ℝ) : ℝ :=
  0.2666 / (sunRADec (noonDays y m day lon)).2.2

/-- The altitude threshold after the optional upper-limb correction. -/
noncomputable def altitEff (y m day : ℕ) (lon altit : ℝ) (upper_limb : Bool) : ℝ :=
  if upper_limb then altit - sradius y m day lon else altit

/-- The hour-angle cosine `cost` of `__sunriset`. -/
noncomputable def sunriset_cost (y m day : ℕ) (lon lat altit : ℝ)
    (upper_limb : Bool) : ℝ :=
  (sind (altitEff y m day lon altit upper_limb)
      - sind lat * sind (sdecl y m day lon)) /
    (cosd lat * cosd (sdecl y m day lon))

/-- `__sunriset`: the pair (rise, set) of UT hours.  `none` models the
`ValueError` branch of `math.acos`. -/
noncomputable def sunriset (y m day : ℕ) (lon lat altit : ℝ)
    (upper_limb : Bool) : Option (ℝ × ℝ) :=
  if sunriset_cost y m day lon lat altit upper_limb ≥ 1 then
    some (tsouth y m day lon - 0, tsouth y m day lon + 0)
  else if sunriset_cost y m day lon lat altit upper_limb ≤ -1 then
    some (tsouth y m day lon - 12, tsouth y m day lon + 12)
  else
    (acosdOpt (sunriset_cost y m day lon lat altit upper_limb)).map
      fun a => (tsouth y m day lon - a / 15, tsouth y m day lon + a / 15)

/-- The diurnal (half-)arc `t` of `__sunriset`, in hours. -/
noncomputable def sunriset_t (y m day : ℕ) (lon lat altit : ℝ)
    (upper_limb : Bool) : ℝ :=
  if sunriset_cost y m day lon lat altit upper_limb ≥ 1 then 0
  else if sunriset_cost y m day lon lat altit upper_limb ≤ -1 then 12
  else acosd (sunriset_cost y m day lon lat altit upper_limb) / 15

/-- `sunRiseSet`: threshold -35/60 degrees, upper limb. -/
noncomputable def sunRiseSet (y m day : ℕ) (lon lat : ℝ) : Option (ℝ × ℝ) :=
  sunriset y m day lon lat (-35 / 60) true

/-- `civilTwilight`: threshold -6 degrees, Sun's center. -/
noncomputable def civilTwilight (y m day : ℕ) (lon lat : ℝ) : Option (ℝ × ℝ) :=
  sunriset y m day lon lat (-6) false

/-- `nauticalTwilight`: threshold -12 degrees, Sun's center. -/
noncomputable def nauticalTwilight (y m day : ℕ) (lon lat : ℝ) : Option (ℝ × ℝ) :=
  sunriset y m day lon lat (-12) false

/-- `astronomicalTwilight`: threshold -18 degrees, Sun's center. -/
noncomputable def astronomicalTwilight (y m day : ℕ) (lon lat : ℝ) : Option (ℝ × ℝ) :=
  sunriset y m day lon lat (-18) false

/-! ### Day-length solver (`__daylen`) -/

/-- Sine of the declination as computed by `__daylen`. -/
noncomputable def daylen_sin_sdecl (y m day : ℕ) (lon : ℝ) : ℝ :=
  sind (obl_ecl (noonDays y m day lon)) * sind ((sunpos (noonDays y m day lon)).1)

/-- Cosine of the declination as computed by `__daylen`. -/
noncomputable def daylen_cos_sdecl (y m day : ℕ) (lon : ℝ) : ℝ :=
  Real.sqrt (1 - daylen_sin_sdecl y m day lon * daylen_sin_sdecl y m day lon)

/-- Apparent radius as computed by `__daylen`. -/
noncomputable def daylen_sradius (y m day : ℕ) (lon : ℝ) : ℝ :=
  0.2666 / (sunpos (noonDays y m day lon)).2

/-- Altitude threshold of `__daylen` after the upper-limb correction. -/
noncomputable def daylen_altitEff (y m day : ℕ) (lon altit : ℝ) (u : Bool) : ℝ :=
  if u then altit - daylen_sradius y m day lon else altit

/-- The hour-angle cosine `cost` of `__daylen`. -/
noncomputable def daylen_cost (y m day : ℕ) (lon lat altit : ℝ) (u : Bool) : ℝ :=
  (sind (daylen_altitEff y m day lon altit u)
      - sind lat * daylen_sin_sdecl y m day lon) /
    (cosd lat * daylen_cos_sdecl y m day lon)

/-- `__daylen`: length of the day in hours.  `none` models the
`ValueError` branch of `math.acos`. -/
noncomputable def daylen (y m day : ℕ) (lon lat altit : ℝ) (u : Bool) : Option ℝ :=
  if daylen_cost y m day lon lat altit u ≥ 1 then some 0
  else if daylen_cost y m day lon lat altit u ≤ -1 then some 24
  else (acosdOpt (daylen_cost y m day lon lat altit u)).map fun a => 2 / 15 * a

/-- `dayLength`: threshold -35/60 degrees, upper limb. -/
noncomputable def dayLength (y m day : ℕ) (lon lat : ℝ) : Option ℝ :=
  daylen y m day lon lat (-35 / 60) true

/-- `dayCivilTwilightLength`. -/
noncomputable def dayCivilTwilightLength (y m day : ℕ) (lon lat : ℝ) : Option ℝ :=
  daylen y m day lon lat (-6) false

/-- `dayNauticalTwilightLength`. -/
noncomputable def dayNauticalTwilightLength (y m day : ℕ) (lon lat : ℝ) : Option ℝ :=
  daylen y m day lon lat (-12) false

/-- `dayAstronomicalTwilightLength`. -/
noncomputable def dayAstronomicalTwilightLength (y m day : ℕ) (lon lat : ℝ) : Option ℝ :=
  daylen y m day lon lat (-18) false

/-! ### Solar altitude (`__solar_altitude`) -/

/-- `__solar_altitude(latitude, year, month, day)`: the reflection branch
is taken before the lower clamp, exactly as in the source. -/
noncomputable def solar_altitude (latitude : ℝ) (y m day : ℕ) : ℝ :=
  if 90 - latitude + (sunRADec ((daysSince2000Jan0 y m day : ℤ) : ℝ)).2.1 > 90 then
    180 - (90 - latitude + (sunRADec ((daysSince2000Jan0 y m day : ℤ) : ℝ)).2.1)
  else if 90 - latitude + (sunRADec ((daysSince2000Jan0 y m day : ℤ) : ℝ)).2.1 < 0 then
    0
  else
    90 - latitude + (sunRADec ((daysSince2000Jan0 y m day : ℤ) : ℝ)).2.1

/-! ### Flux / equation of time (`__julian`, `__solcons`,
`__equation_of_time`, `__get_max_solar_flux`) -/

/-- The cumulative month table of `__julian`. -/
def lMonth (year : ℕ) : List ℕ :=
  if isleap year then [0, 31, 60, 91, 121, 152, 182, 213, 244, 274, 305, 335, 366]
  else [0, 31, 59, 90, 120, 151, 181, 212, 243, 273, 304, 334, 365]

/-- `__julian(year, month, day) = lMonth[month - 1] + day`. -/
def julian (year month day : ℕ) : ℕ := (lMonth year).getD (month - 1) 0 + day

/-- `__solcons(dAlf)`: eccentricity correction of the solar constant. -/
noncomputable def solcons (dAlf : ℝ) : ℝ :=
  1 / (1 - 9.464e-4 * Real.sin dAlf - 0.01671 * Real.cos dAlf
      - 1.489e-4 * Real.cos (2 * dAlf) - 2.917e-5 * Real.sin (3 * dAlf)
      - 3.438e-4 * Real.cos (4 * dAlf)) ^ 2

/-- `fDivide` of `__equation_of_time`. -/
noncomputable def eot_fDivide (year : ℕ) : ℝ :=
  2 * π / (if isleap year then 366 else 365)

/-- `fA` of `__equation_of_time`. -/
noncomputable def eot_fA (year month day : ℕ) : ℝ :=
  (julian year month day : ℝ) * eot_fDivide year

/-- `fR0r` of `__equation_of_time`: corrected solar constant. -/
noncomputable def eot_fR0r (year month day : ℕ) : ℝ :=
  solcons (eot_fA year month day) * 0.1367e4

/-- `fRdecl` of `__equation_of_time`. -/
noncomputable def eot_fRdecl (year month day : ℕ) : ℝ :=
  0.412 * Real.cos (((julian year month day : ℝ) + 10) * eot_fDivide year - π)

/-- `fDeclsc1` of `__equation_of_time`. -/
noncomputable def eot_fDeclsc1 (year month day : ℕ) (latitude : ℝ) : ℝ :=
  sind latitude * Real.sin (eot_fRdecl year month day)

/-- `fDeclsc2` of `__equation_of_time`. -/
noncomputable def eot_fDeclsc2 (year month day : ℕ) (latitude : ℝ) : ℝ :=
  cosd latitude * Real.cos (eot_fRdecl year month day)

/-- `fEot` of `__equation_of_time` (minutes, then radians of hour). -/
noncomputable def eot_fEot (year month day : ℕ) : ℝ :=
  radians ((0.002733
      - 7.3430 * Real.sin (eot_fA year month day)
      + 0.55190 * Real.cos (eot_fA year month day)
      - 9.4700 * Real.sin (2 * eot_fA year month day)
      - 3.02000 * Real.cos (2 * eot_fA year month day)
      - 0.3289 * Real.sin (3 * eot_fA year month day)
      - 0.07581 * Real.cos (3 * eot_fA year month day)
      - 0.1935 * Real.sin (4 * eot_fA year month day)
      - 0.12450 * Real.cos (4 * eot_fA year month day)) * 15 / 60)

/-- `__equation_of_time(year, month, day, latitude)`. -/
noncomputable def equation_of_time (year month day : ℕ) (latitude : ℝ) :
    ℝ × ℝ × (ℝ × ℝ) :=
  (eot_fEot year month day, eot_fR0r year month day,
    (eot_fDeclsc1 year month day latitude, eot_fDeclsc2 year month day latitude))

/-- `fSF` of `__get_max_solar_flux`: declination-derived flux. -/
noncomputable def flux_fSF (latitude : ℝ) (year month day : ℕ) : ℝ :=
  ((equation_of_time year month day latitude).2.2.1
      + (equation_of_time year month day latitude).2.2.2)
    * (equation_of_time year month day latitude).2.1

/-- The quartic attenuation polynomial of `__get_max_solar_flux`. -/
noncomputable def flux_coeff (fSF : ℝ) : ℝ :=
  -1.56e-12 * fSF ^ 4 + 5.972e-9 * fSF ^ 3 - 8.364e-6 * fSF ^ 2
    + 5.183e-3 * fSF - 0.435

/-- `fCoeff` of `__get_max_solar_flux` (zero when `fSF` is negative). -/
noncomputable def flux_fCoeff (latitude : ℝ) (year month day : ℕ) : ℝ :=
  if flux_fSF latitude year month day < 0 then 0
  else flux_coeff (flux_fSF latitude year month day)

/-- `fSFT = fSF * fCoeff` of `__get_max_solar_flux`. -/
noncomputable def flux_fSFT (latitude : ℝ) (year month day : ℕ) : ℝ :=
  flux_fSF latitude year month day * flux_fCoeff latitude year month day

/-- `__get_max_solar_flux(latitude, year, month, day)`. -/
noncomputable def get_max_solar_flux (latitude : ℝ) (year month day : ℕ) : ℝ :=
  if flux_fSFT latitude year month day < 0 then 0
  else flux_fSFT latitude year month day

/-! ### Range facts for `atan2`, `__acosd`, `tsouth` -/

theorem arctan_pos_of_pos {x : ℝ} (h : 0 < x) : 0 < Real.arctan x := by
  have := Real.arctan_strictMono h
  rwa [Real.arctan_zero] at this

theorem arctan_nonpos_of_nonpos {x : ℝ} (h : x ≤ 0) : Real.arctan x ≤ 0 := by
  have := Real.arctan_strictMono.monotone h
  rwa [Real.arctan_zero] at this

theorem atan2_mem (y x : ℝ) : -π < atan2 y x ∧ atan2 y x ≤ π := by
  have hπ := Real.pi_pos
  have ha1 := Real.arctan_lt_pi_div_two (y / x)
  have ha2 := Real.neg_pi_div_two_lt_arctan (y / x)
  unfold atan2
  split_ifs with h1 h2 h3 h4 h5
  · exact ⟨by linarith, by linarith⟩
  · have hyx : y / x ≤ 0 := div_nonpos_of_nonneg_of_nonpos h3 (le_of_lt h2)
    have := arctan_nonpos_of_nonpos hyx
    exact ⟨by linarith, by linarith⟩
  · have hyx : 0 < y / x := div_pos_of_neg_of_neg (lt_of_not_le h3) h2
    have := arctan_pos_of_pos hyx
    exact ⟨by linarith, by linarith⟩
  · exact ⟨by linarith, by linarith⟩
  · exact ⟨by linarith, by linarith⟩
  · exact ⟨by linarith, by linarith⟩

/-- When the second argument is nonnegative, `atan2` lands in
`[-π/2, π/2]` — the Sun's declination is always in `[-90°, 90°]`. -/
theorem atan2_mem_of_nonneg_snd {y x : ℝ} (hx : 0 ≤ x) :
    -(π / 2) ≤ atan2 y x ∧ atan2 y x ≤ π / 2 := by
  have hπ := Real.pi_pos
  have ha1 := Real.arctan_lt_pi_div_two (y / x)
  have ha2 := Real.neg_pi_div_two_lt_arctan (y / x)
  unfold atan2
  split_ifs with h1 h2 h3 h4 h5
  · exact ⟨by linarith, by linarith⟩
  · exact absurd h2 (not_lt.mpr hx)
  · exact absurd h2 (not_lt.mpr hx)
  · exact ⟨by linarith, by linarith⟩
  · exact ⟨by linarith, by linarith⟩
  · exact ⟨by linarith, by linarith⟩

/-- When the y-argument is positive, `atan2` lands in `(0, π)`. -/
theorem atan2_pos_of_pos_fst {y x : ℝ} (hy : 0 < y) :
    0 < atan2 y x ∧ atan2 y x < π := by
  have hπ := Real.pi_pos
  have ha1 := Real.arctan_lt_pi_div_two (y / x)
  have ha2 := Real.neg_pi_div_two_lt_arctan (y / x)
  unfold atan2
  split_ifs with h1 h2 h3
  · have hyx : 0 < y / x := div_pos hy h1
    have := arctan_pos_of_pos hyx
    exact ⟨by linarith, by linarith⟩
  · have hyx : y / x ≤ 0 := div_nonpos_of_nonneg_of_nonpos (le_of_lt hy) (le_of_lt h2)
    have hneg : Real.arctan (y / x) ≤ 0 := arctan_nonpos_of_nonpos hyx
    have hne : Real.arctan (y / x) ≠ 0 := fun hh =>
      div_ne_zero (ne_of_gt hy) (ne_of_lt h2) (Real.arctan_eq_zero_iff.mp hh)
    have : Real.arctan (y / x) < 0 := lt_of_le_of_ne hneg hne
    exact ⟨by linarith, by linarith⟩
  · exact absurd (le_of_lt hy) h3
  · exact ⟨by linarith, by linarith⟩

/-- With a positive y-argument and a negative x-argument, `atan2` lands
in `(π/2, π)`. -/
theorem atan2_mem_of_pos_neg {y x : ℝ} (hy : 0 < y) (hx : x < 0) :
    π / 2 < atan2 y x ∧ atan2 y x < π := by
  have hπ := Real.pi_pos
  unfold atan2
  rw [if_neg (not_lt.mpr (le_of_lt hx)), if_pos hx, if_pos (le_of_lt hy)]
  have hyx : y / x ≤ 0 := div_nonpos_of_nonneg_of_nonpos (le_of_lt hy) (le_of_lt hx)
  have hneg : Real.arctan (y / x) ≤ 0 := arctan_nonpos_of_nonpos hyx
  have hne : Real.arctan (y / x) ≠ 0 := fun hh =>
    div_ne_zero (ne_of_gt hy) (ne_of_lt hx) (Real.arctan_eq_zero_iff.mp hh)
  have h2 := Real.neg_pi_div_two_lt_arctan (y / x)
  have : Real.arctan (y / x) < 0 := lt_of_le_of_ne hneg hne
  exact ⟨by linarith, by linarith⟩

theorem degrees_lt_degrees {a b : ℝ} (h : a < b) : degrees a < degrees b := by
  unfold degrees
  have hs : (0 : ℝ) < 180 / π := by positivity
  exact mul_lt_mul_of_pos_right h hs

theorem degrees_le_degrees {a b : ℝ} (h : a ≤ b) : degrees a ≤ degrees b := by
  unfold degrees
  have hs : (0 : ℝ) < 180 / π := by positivity
  exact mul_le_mul_of_nonneg_right h (le_of_lt hs)

theorem degrees_pi : degrees π = 180 := by
  unfold degrees
  field_simp

theorem degrees_pi_div_two : degrees (π / 2) = 90 := by
  unfold degrees
  field_simp
  ring

theorem degrees_zero : degrees 0 = 0 := by
  unfold degrees
  ring

/-- `__atan2d` lands in `(-180, 180]`. -/
theorem atan2d_mem (y x : ℝ) : -180 < atan2d y x ∧ atan2d y x ≤ 180 := by
  obtain ⟨h1, h2⟩ := atan2_mem y x
  constructor
  · have := degrees_lt_degrees h1
    rw [show degrees (-π) = -180 by unfold degrees; field_simp; ring] at this
    exact this
  · have := degrees_le_degrees h2
    rwa [degrees_pi] at this

/-- `__acosd` lands in `[0, 180]` on all of `ℝ` (`Real.arccos` clamps). -/
theorem acosd_mem (x : ℝ) : 0 ≤ acosd x ∧ acosd x ≤ 180 := by
  unfold acosd
  constructor
  · have h := Real.arccos_nonneg x
    rw [show (0:ℝ) = degrees 0 by rw [degrees_zero]]
    exact degrees_le_degrees h
  · have h := Real.arccos_le_pi x
    have := degrees_le_degrees h
    rwa [degrees_pi] at this

/-- The transit hour `tsouth` always lies in `(0, 24]`. -/
theorem tsouth_mem (y m day : ℕ) (lon : ℝ) :
    0 < tsouth y m day lon ∧ tsouth y m day lon ≤ 24 := by
  obtain ⟨h1, h2⟩ :=
    rev180_mem (sidtime y m day lon - (sunRADec (noonDays y m day lon)).1)
  unfold tsouth
  constructor <;> linarith

/-- `__sunriset` always takes the `some` branch, and its value is the
pair `(tsouth - t, tsouth + t)` for the diurnal arc `t`. -/
theorem sunriset_eq (y m day : ℕ) (lon lat altit : ℝ) (u : Bool) :
    sunriset y m day lon lat altit u =
      some (tsouth y m day lon - sunriset_t y m day lon lat altit u,
            tsouth y m day lon + sunriset_t y m day lon lat altit u) := by
  unfold sunriset sunriset_t
  by_cases h1 : sunriset_cost y m day lon lat altit u ≥ 1
  · simp [h1]
  · by_cases h2 : sunriset_cost y m day lon lat altit u ≤ -1
    · simp [h1, h2]
    · have hc1 : sunriset_cost y m day lon lat altit u < 1 := lt_of_not_ge h1
      have hc2 : -1 < sunriset_cost y m day lon lat altit u := lt_of_not_le h2
      rw [if_neg h1, if_neg h2, if_neg h1, if_neg h2]
      unfold acosdOpt acosd
      rw [if_pos ⟨le_of_lt hc2, le_of_lt hc1⟩]
      rfl

/-- The diurnal arc `t` of `__sunriset` always lies in `[0, 12]`. -/
theorem sunriset_t_mem (y m day : ℕ) (lon lat altit : ℝ) (u : Bool) :
    0 ≤ sunriset_t y m day lon lat altit u ∧
      sunriset_t y m day lon lat altit u ≤ 12 := by
  unfold sunriset_t
  split_ifs with h1 h2
  · norm_num
  · norm_num
  · obtain ⟨ha, hb⟩ := acosd_mem (sunriset_cost y m day lon lat altit u)
    constructor <;> linarith

/-- The hours value computed by `__daylen` (total form). -/
noncomputable def daylen_hours (y m day : ℕ) (lon lat altit : ℝ) (u : Bool) : ℝ :=
  if daylen_cost y m day lon lat altit u ≥ 1 then 0
  else if daylen_cost y m day lon lat altit u ≤ -1 then 24
  else 2 / 15 * acosd (daylen_cost y m day lon lat altit u)

/-- `__daylen` always takes the `some` branch. -/
theorem daylen_eq (y m day : ℕ) (lon lat altit : ℝ) (u : Bool) :
    daylen y m day lon lat altit u =
      some (daylen_hours y m day lon lat altit u) := by
  unfold daylen daylen_hours
  by_cases h1 : daylen_cost y m day lon lat altit u ≥ 1
  · simp [h1]
  · by_cases h2 : daylen_cost y m day lon lat altit u ≤ -1
    · simp [h1, h2]
    · have hc1 : daylen_cost y m day lon lat altit u < 1 := lt_of_not_ge h1
      have hc2 : -1 < daylen_cost y m day lon lat altit u := lt_of_not_le h2
      rw [if_neg h1, if_neg h2, if_neg h1, if_neg h2]
      unfold acosdOpt acosd
      rw [if_pos ⟨le_of_lt hc2, le_of_lt hc1⟩]
      rfl

theorem daylen_hours_mem (y m day : ℕ) (lon lat altit : ℝ) (u : Bool) :
    0 ≤ daylen_hours y m day lon lat altit u ∧
      daylen_hours y m day lon lat altit u ≤ 24 := by
  unfold daylen_hours
  split_ifs with h1 h2
  · norm_num
  · norm_num
  · obtain ⟨ha, hb⟩ := acosd_mem (daylen_cost y m day lon lat altit u)
    constructor <;> linarith

/-! ### Claim theorems: C1, C2, C7 -/

set_option maxRecDepth 40000 in
/-- C1: `__daysSince2000Jan0` is documented (and claimed) to give the
Gregorian day count from 1999-12-31 for every calendar date with year in
[1801, 2099].  It does at the epoch and at the repository's own test date
2008-10-31, but at 1900-01-01 — inside the documented range — it returns
-36524 while the Gregorian day count is -36523: the formula has no
Gregorian century correction and silently treats 1900 as a leap year, so
every date from 1801-01-01 through 1900-02-28 is off by one day. -/
theorem C1_daysSince2000Jan0_1900_divergence :
    daysSince2000Jan0 2000 1 1 = 1 ∧ dayNumber 2000 1 1 = 1 ∧
    daysSince2000Jan0 2008 10 31 = 3227 ∧ dayNumber 2008 10 31 = 3227 ∧
    daysSince2000Jan0 1900 3 1 = dayNumber 1900 3 1 ∧
    daysSince2000Jan0 1900 1 1 = -36524 ∧ dayNumber 1900 1 1 = -36523 ∧
    daysSince2000Jan0 1900 1 1 ≠ dayNumber 1900 1 1 := by
  refine ⟨by decide, by decide, by decide, by decide, by decide, by decide,
    by decide, by decide⟩

/-- C2 (counterexample): the claim asserts `__rev180` lands in
`(-180, 180]`; at `x = 180` the code returns `-180`, which is outside that
interval (and `180` itself is never returned). -/
theorem C2_rev180_cex :
    rev180 180 = -180 ∧ ¬ (-180 < rev180 180) := by
  have hfloor : ⌊(180 : ℝ) / 360 + 0.5⌋ = 1 := by
    norm_num
  have hval : rev180 180 = -180 := by
    unfold rev180
    rw [hfloor]
    norm_num
  exact ⟨hval, by rw [hval]; norm_num⟩

/-- C2 (amended): for every real `x`, `__rev180 x` lies in the half-open
interval `[-180, 180)` — closed on the left, open on the right, rather
than the claimed `(-180, 180]` — and `__rev180` is invariant under adding
any integer multiple of 360. -/
theorem C2_rev180_amended (x : ℝ) (k : ℤ) :
    (-180 ≤ rev180 x ∧ rev180 x < 180) ∧ rev180 (x + 360 * k) = rev180 x :=
  ⟨rev180_mem x, rev180_period x k⟩

/-- C7: `__revolution` always returns a value in `[0, 360)` and is
invariant under adding any integer multiple of 360 (the floor-based
modulo keeps the range correct for negative inputs as well). -/
theorem C7_revolution_range_periodic (x : ℝ) (k : ℤ) :
    (0 ≤ revolution x ∧ revolution x < 360) ∧
    revolution (x + 360 * k) = revolution x :=
  ⟨revolution_mem x, revolution_period x k⟩

/-! ### Degree-trigonometry helper lemmas -/

theorem radians_le_radians {a b : ℝ} (h : a ≤ b) : radians a ≤ radians b := by
  unfold radians
  have hs : (0:ℝ) ≤ π / 180 := by positivity
  exact mul_le_mul_of_nonneg_right h hs

theorem radians_lt_radians {a b : ℝ} (h : a < b) : radians a < radians b := by
  unfold radians
  have hs : (0:ℝ) < π / 180 := by positivity
  exact mul_lt_mul_of_pos_right h hs

theorem radians_neg_ninety : radians (-90) = -(π / 2) := by
  unfold radians
  ring

theorem radians_ninety : radians 90 = π / 2 := by
  unfold radians
  ring

theorem radians_one_eighty : radians 180 = π := by
  unfold radians
  have hπ : π ≠ 0 := ne_of_gt Real.pi_pos
  field_simp

theorem radians_degrees (t : ℝ) : radians (degrees t) = t := by
  unfold radians degrees
  have hπ : π ≠ 0 := ne_of_gt Real.pi_pos
  field_simp

theorem cosd_degrees (t : ℝ) : cosd (degrees t) = Real.cos t := by
  unfold cosd
  rw [radians_degrees]

theorem sind_degrees (t : ℝ) : sind (degrees t) = Real.sin t := by
  unfold sind
  rw [radians_degrees]

/-- `__sind` is monotone on angles in `[-90, 90]` degrees. -/
theorem sind_le_sind {a b : ℝ} (ha : -90 ≤ a) (hb : b ≤ 90) (hab : a ≤ b) :
    sind a ≤ sind b := by
  unfold sind
  have hma : radians a ∈ Set.Icc (-(π / 2)) (π / 2) := by
    constructor
    · rw [show -(π/2) = radians (-90) from radians_neg_ninety.symm]
      exact radians_le_radians ha
    · rw [show π/2 = radians 90 from radians_ninety.symm]
      exact radians_le_radians (le_trans hab hb)
  have hmb : radians b ∈ Set.Icc (-(π / 2)) (π / 2) := by
    constructor
    · rw [show -(π/2) = radians (-90) from radians_neg_ninety.symm]
      exact radians_le_radians (le_trans ha hab)
    · rw [show π/2 = radians 90 from radians_ninety.symm]
      exact radians_le_radians hb
  exact Real.strictMonoOn_sin.monotoneOn hma hmb (radians_le_radians hab)

/-- `__sind` is strictly monotone on angles in `[-90, 90]` degrees. -/
theorem sind_lt_sind {a b : ℝ} (ha : -90 ≤ a) (hb : b ≤ 90) (hab : a < b) :
    sind a < sind b := by
  unfold sind
  have hma : radians a ∈ Set.Icc (-(π / 2)) (π / 2) := by
    constructor
    · rw [show -(π/2) = radians (-90) from radians_neg_ninety.symm]
      exact radians_le_radians ha
    · rw [show π/2 = radians 90 from radians_ninety.symm]
      exact radians_le_radians (le_trans (le_of_lt hab) hb)
  have hmb : radians b ∈ Set.Icc (-(π / 2)) (π / 2) := by
    constructor
    · rw [show -(π/2) = radians (-90) from radians_neg_ninety.symm]
      exact radians_le_radians (le_trans ha (le_of_lt hab))
    · rw [show π/2 = radians 90 from radians_ninety.symm]
      exact radians_le_radians hb
  exact Real.strictMonoOn_sin hma hmb (radians_lt_radians hab)

theorem cosd_nonneg_of_mem {a : ℝ} (h1 : -90 ≤ a) (h2 : a ≤ 90) : 0 ≤ cosd a := by
  unfold cosd
  apply Real.cos_nonneg_of_mem_Icc
  constructor
  · rw [show -(π/2) = radians (-90) from radians_neg_ninety.symm]
    exact radians_le_radians h1
  · rw [show π/2 = radians 90 from radians_ninety.symm]
    exact radians_le_radians h2

theorem sind_pos_of_mem {a : ℝ} (h1 : 0 < a) (h2 : a < 180) : 0 < sind a := by
  unfold sind
  apply Real.sin_pos_of_pos_of_lt_pi
  · have := radians_lt_radians h1
    unfold radians at this ⊢
    simpa using this
  · have := radians_lt_radians h2
    rwa [radians_one_eighty] at this

theorem sin_le_self {x : ℝ} (h : 0 ≤ x) : Real.sin x ≤ x := by
  rcases eq_or_lt_of_le h with heq | hlt
  · rw [← heq]
    simp
  · exact le_of_lt (Real.sin_lt hlt)

/-- A numeric bound on `sind` for angles `a ∈ [0, 90]`:
`sind a ≤ radians a`. -/
theorem sind_le_radians {a : ℝ} (h : 0 ≤ a) : sind a ≤ radians a := by
  unfold sind
  exact sin_le_self (by unfold radians; positivity)

theorem neg_radians_le_sind {a : ℝ} (h : a ≤ 0) : -(radians (-a)) ≤ sind a := by
  have hs := sind_le_radians (a := -a) (by linarith)
  have : sind (-a) = -sind a := by
    unfold sind radians
    rw [show -a * (π/180) = -(a * (π/180)) by ring, Real.sin_neg]
  rw [this] at hs
  linarith

/-- Quadratic lower bound for `cosd` near 0. -/
theorem cosd_ge_one_sub {a : ℝ} : 1 - (radians a) ^ 2 / 2 ≤ cosd a := by
  unfold cosd
  exact Real.one_sub_sq_div_two_le_cos

theorem pi_bounds : 3.14 < π ∧ π < 3.15 := ⟨Real.pi_gt_d2, Real.pi_lt_d2⟩

/-! ### The solar distance `r = |1 - e·cos E|` and its bounds -/

/-- For small eccentricity the hypotenuse computed by `__sunpos` reduces
to `1 - e·cos E` (by `sin² + cos² = 1`). -/
theorem sunpos_r_eq {d : ℝ} (he1 : 0 ≤ sunpos_e d) (he2 : sunpos_e d ≤ 0.5) :
    sunpos_r d = 1 - sunpos_e d * cosd (sunpos_E d) := by
  have hc1 := Real.neg_one_le_cos (radians (sunpos_E d))
  have hc2 := Real.cos_le_one (radians (sunpos_E d))
  have hsq := Real.sin_sq_add_cos_sq (radians (sunpos_E d))
  have h1me : (0:ℝ) ≤ 1 - sunpos_e d * sunpos_e d := by nlinarith
  have hss := Real.mul_self_sqrt h1me
  have hiden : sunpos_x d * sunpos_x d + sunpos_y d * sunpos_y d
      = (1 - sunpos_e d * cosd (sunpos_E d)) ^ 2 := by
    unfold sunpos_x sunpos_y sind cosd
    linear_combination
      (Real.sin (radians (sunpos_E d)) * Real.sin (radians (sunpos_E d))) * hss
        + (1 - sunpos_e d * sunpos_e d) * hsq
  have hec : sunpos_e d * Real.cos (radians (sunpos_E d)) ≤ sunpos_e d := by
    nlinarith
  have hpos : (0:ℝ) ≤ 1 - sunpos_e d * cosd (sunpos_E d) := by
    unfold cosd
    nlinarith
  unfold sunpos_r
  rw [hiden, Real.sqrt_sq hpos]

theorem sunpos_e_bounds {d : ℝ} (h1 : -1000000 ≤ d) (h2 : d ≤ 1000000) :
    0 ≤ sunpos_e d ∧ sunpos_e d ≤ 0.018 := by
  unfold sunpos_e
  constructor <;> nlinarith

theorem sunpos_r_bounds {d : ℝ} (he1 : 0 ≤ sunpos_e d) (he2 : sunpos_e d ≤ 0.018) :
    0.982 ≤ sunpos_r d ∧ sunpos_r d ≤ 1.018 := by
  have hr := sunpos_r_eq he1 (by linarith)
  have hc1 := Real.neg_one_le_cos (radians (sunpos_E d))
  have hc2 := Real.cos_le_one (radians (sunpos_E d))
  have hm1 : sunpos_e d * cosd (sunpos_E d) ≤ 0.018 := by
    unfold cosd
    nlinarith
  have hm2 : -0.018 ≤ sunpos_e d * cosd (sunpos_E d) := by
    unfold cosd
    nlinarith
  rw [hr]
  constructor <;> linarith

/-- The declination reported by `__sunRADec` always lies in `[-90, 90]`
degrees: the second `atan2` argument is a square root. -/
theorem sunRADec_dec_mem (d : ℝ) :
    -90 ≤ (sunRADec d).2.1 ∧ (sunRADec d).2.1 ≤ 90 := by
  have hs : (0:ℝ) ≤ Real.sqrt
      (sunRADec_xe d * sunRADec_xe d + sunRADec_y2 d * sunRADec_y2 d) :=
    Real.sqrt_nonneg _
  obtain ⟨hm1, hm2⟩ := atan2_mem_of_nonneg_snd (y := sunRADec_z d) hs
  have heq : (sunRADec d).2.1 = degrees (atan2 (sunRADec_z d)
      (Real.sqrt (sunRADec_xe d * sunRADec_xe d + sunRADec_y2 d * sunRADec_y2 d))) := by
    simp only [sunRADec]
    rfl
  constructor
  · rw [heq]
    have := degrees_le_degrees hm1
    rw [show degrees (-(π/2)) = -90 by unfold degrees; field_simp; ring] at this
    exact this
  · rw [heq]
    have := degrees_le_degrees hm2
    rwa [degrees_pi_div_two] at this

/-- The cosine of the reported declination is never negative. -/
theorem cosd_sdecl_nonneg (d : ℝ) : 0 ≤ cosd ((sunRADec d).2.1) := by
  obtain ⟨h1, h2⟩ := sunRADec_dec_mem d
  exact cosd_nonneg_of_mem h1 h2

/-! ### A concrete window: day counts `d ∈ [150, 180]` (near the June
solstice of 2000).  On this window every sign needed by the claims about
`__solar_altitude`, `__sunriset` and `__daylen` can be settled. -/

theorem solstice_M (d : ℝ) (hd1 : 150 ≤ d) (hd2 : d ≤ 180) :
    143 ≤ sunpos_M d ∧ sunpos_M d ≤ 174 := by
  have harg1 : (360:ℝ) ≤ 356.0470 + 0.9856002585 * d := by nlinarith
  have harg2 : 356.0470 + 0.9856002585 * d < 720 := by nlinarith
  have heq : sunpos_M d = 356.0470 + 0.9856002585 * d - 360 := by
    unfold sunpos_M
    exact revolution_eq_sub harg1 harg2
  rw [heq]
  constructor <;> nlinarith

theorem solstice_e (d : ℝ) (hd1 : 150 ≤ d) (hd2 : d ≤ 180) :
    0.0167 ≤ sunpos_e d ∧ sunpos_e d ≤ 0.016709 := by
  unfold sunpos_e
  constructor <;> nlinarith

theorem solstice_E (d : ℝ) (hd1 : 150 ≤ d) (hd2 : d ≤ 180) :
    100 ≤ sunpos_E d ∧ sunpos_E d ≤ 176 := by
  obtain ⟨hM1, hM2⟩ := solstice_M d hd1 hd2
  obtain ⟨he1, he2⟩ := solstice_e d hd1 hd2
  have hsin1 := Real.neg_one_le_sin (radians (sunpos_M d))
  have hsin2 := Real.sin_le_one (radians (sunpos_M d))
  have hcos1 := Real.neg_one_le_cos (radians (sunpos_M d))
  have hcos2 := Real.cos_le_one (radians (sunpos_M d))
  have hπ1 : (3.14:ℝ) < π := Real.pi_gt_d2
  have hπ0 : (0:ℝ) < π := Real.pi_pos
  have hdeg0 : 0 ≤ degrees (sunpos_e d) := by
    unfold degrees
    positivity
  have hdeg : degrees (sunpos_e d) ≤ 0.958 := by
    unfold degrees
    have hfrac : (180:ℝ) / π ≤ 180 / 3.14 :=
      div_le_div_of_nonneg_left (by norm_num) (by norm_num) (le_of_lt hπ1)
    have := mul_le_mul he2 hfrac (by positivity) (by norm_num)
    nlinarith
  have hC1 : (0.983:ℝ) ≤ 1 + sunpos_e d * cosd (sunpos_M d) := by
    unfold cosd
    nlinarith
  have hC2 : 1 + sunpos_e d * cosd (sunpos_M d) ≤ 1.017 := by
    unfold cosd
    nlinarith
  have hB1 : -1 ≤ sind (sunpos_M d) := by unfold sind; exact hsin1
  have hB2 : sind (sunpos_M d) ≤ 1 := by unfold sind; exact hsin2
  have hAB1 : -(0.958:ℝ) ≤ degrees (sunpos_e d) * sind (sunpos_M d) := by nlinarith
  have hAB2 : degrees (sunpos_e d) * sind (sunpos_M d) ≤ 0.958 := by nlinarith
  have hprod1 : (0.958 - degrees (sunpos_e d) * sind (sunpos_M d))
      * (1 + sunpos_e d * cosd (sunpos_M d)) ≥ 0 :=
    mul_nonneg (by linarith) (by linarith)
  have hprod2 : (degrees (sunpos_e d) * sind (sunpos_M d) + 0.958)
      * (1 + sunpos_e d * cosd (sunpos_M d)) ≥ 0 :=
    mul_nonneg (by linarith) (by linarith)
  unfold sunpos_E
  constructor <;> nlinarith

theorem solstice_E_trig (d : ℝ) (hd1 : 150 ≤ d) (hd2 : d ≤ 180) :
    0 < sind (sunpos_E d) ∧ cosd (sunpos_E d) ≤ 0 := by
  obtain ⟨hE1, hE2⟩ := solstice_E d hd1 hd2
  constructor
  · exact sind_pos_of_mem (by linarith) (by linarith)
  · unfold cosd
    apply Real.cos_nonpos_of_pi_div_two_le_of_le
    · rw [← radians_ninety]
      exact radians_le_radians (by linarith)
    · rw [show π + π / 2 = radians 270 by unfold radians; ring]
      exact radians_le_radians (by linarith)

theorem solstice_xyr (d : ℝ) (hd1 : 150 ≤ d) (hd2 : d ≤ 180) :
    sunpos_x d < 0 ∧ 0 < sunpos_y d ∧ 1 ≤ sunpos_r d ∧ sunpos_r d ≤ 1.017 := by
  obtain ⟨hsE, hcE⟩ := solstice_E_trig d hd1 hd2
  obtain ⟨he1, he2⟩ := solstice_e d hd1 hd2
  have hx : sunpos_x d < 0 := by
    unfold sunpos_x
    linarith
  have hy : 0 < sunpos_y d := by
    unfold sunpos_y
    have h1me : (0:ℝ) < 1 - sunpos_e d * sunpos_e d := by nlinarith
    exact mul_pos (Real.sqrt_pos.mpr h1me) hsE
  have hr := sunpos_r_eq (d := d) (by linarith) (by linarith)
  have hec_le : sunpos_e d * cosd (sunpos_E d) ≤ 0 := by nlinarith
  have hec_ge : -0.016709 ≤ sunpos_e d * cosd (sunpos_E d) := by
    have hcos1 : -1 ≤ cosd (sunpos_E d) := by
      unfold cosd
      exact Real.neg_one_le_cos _
    nlinarith
  exact ⟨hx, hy, by rw [hr]; linarith, by rw [hr]; linarith⟩

theorem solstice_slon (d : ℝ) (hd1 : 150 ≤ d) (hd2 : d ≤ 180) :
    12 < (sunpos d).1 ∧ (sunpos d).1 < 103 := by
  obtain ⟨hx, hy, hr1, hr2⟩ := solstice_xyr d hd1 hd2
  obtain ⟨hva, hvb⟩ := atan2_mem_of_pos_neg hy hx
  have hv90 : 90 < sunpos_v d := by
    unfold sunpos_v atan2d
    have := degrees_lt_degrees hva
    rwa [degrees_pi_div_two] at this
  have hv180 : sunpos_v d < 180 := by
    unfold sunpos_v atan2d
    have := degrees_lt_degrees hvb
    rwa [degrees_pi] at this
  have hw1 : 282.947 ≤ sunpos_w d := by
    unfold sunpos_w
    nlinarith
  have hw2 : sunpos_w d ≤ 282.949 := by
    unfold sunpos_w
    nlinarith
  have hge : sunpos_v d + sunpos_w d ≥ 360 := by linarith
  have heq : (sunpos d).1 = sunpos_v d + sunpos_w d - 360 := by
    simp only [sunpos]
    rw [if_pos hge]
  rw [heq]
  constructor <;> linarith

theorem solstice_obl (d : ℝ) (hd1 : 150 ≤ d) (hd2 : d ≤ 180) :
    0 < sind (obl_ecl d) ∧ sind (obl_ecl d) ≤ 0.411 ∧
    0.91 ≤ cosd (obl_ecl d) ∧ sind (obl_ecl d) ≤ cosd (obl_ecl d) := by
  have ho1 : 23.43 ≤ obl_ecl d := by
    unfold obl_ecl
    nlinarith
  have ho2 : obl_ecl d ≤ 23.44 := by
    unfold obl_ecl
    nlinarith
  have hπ1 : (3.14:ℝ) < π := Real.pi_gt_d2
  have hπ2 : π < 3.15 := Real.pi_lt_d2
  have hrad1 : 0 < radians (obl_ecl d) := by
    unfold radians
    have : (0:ℝ) < π / 180 := by positivity
    nlinarith
  have hrad2 : radians (obl_ecl d) ≤ 0.4102 := by
    unfold radians
    nlinarith
  have hs_pos : 0 < sind (obl_ecl d) := sind_pos_of_mem (by linarith) (by linarith)
  have hs_le : sind (obl_ecl d) ≤ 0.411 := by
    have := sind_le_radians (a := obl_ecl d) (by linarith)
    linarith
  have hc_ge : 0.91 ≤ cosd (obl_ecl d) := by
    have h := cosd_ge_one_sub (a := obl_ecl d)
    nlinarith
  exact ⟨hs_pos, hs_le, hc_ge, by linarith⟩

theorem solstice_z (d : ℝ) (hd1 : 150 ≤ d) (hd2 : d ≤ 180) :
    0 < sunRADec_z d ∧ sunRADec_z d ≤ sunRADec_y2 d ∧ 0 < sunRADec_y2 d := by
  obtain ⟨hlon1, hlon2⟩ := solstice_slon d hd1 hd2
  obtain ⟨_, _, hr1, hr2⟩ := solstice_xyr d hd1 hd2
  obtain ⟨hso1, hso2, hco, hsc⟩ := solstice_obl d hd1 hd2
  have hsl : 0 < sind ((sunpos d).1) :=
    sind_pos_of_mem (by linarith) (by linarith)
  have hye : 0 < sunRADec_ye d := by
    unfold sunRADec_ye
    have : (sunpos d).2 = sunpos_r d := rfl
    exact mul_pos (by linarith) hsl
  refine ⟨?_, ?_, ?_⟩
  · unfold sunRADec_z
    exact mul_pos hye hso1
  · unfold sunRADec_z sunRADec_y2
    exact mul_le_mul_of_nonneg_left hsc (le_of_lt hye)
  · unfold sunRADec_y2
    exact mul_pos hye (by linarith)

theorem solstice_dec (d : ℝ) (hd1 : 150 ≤ d) (hd2 : d ≤ 180) :
    0 < (sunRADec d).2.1 ∧ (sunRADec d).2.1 < 90 ∧
    0.7 ≤ cosd ((sunRADec d).2.1) := by
  obtain ⟨hz, hzy, hy2⟩ := solstice_z d hd1 hd2
  have hyy : sunRADec_y2 d * sunRADec_y2 d
      ≤ sunRADec_xe d * sunRADec_xe d + sunRADec_y2 d * sunRADec_y2 d := by
    nlinarith [mul_self_nonneg (sunRADec_xe d)]
  have hyp_ge : sunRADec_y2 d ≤ Real.sqrt
      (sunRADec_xe d * sunRADec_xe d + sunRADec_y2 d * sunRADec_y2 d) := by
    rw [Real.le_sqrt (le_of_lt hy2) (by nlinarith [mul_self_nonneg (sunRADec_xe d)])]
    nlinarith [mul_self_nonneg (sunRADec_xe d)]
  set H := Real.sqrt (sunRADec_xe d * sunRADec_xe d + sunRADec_y2 d * sunRADec_y2 d)
    with hH
  have hyp_pos : 0 < H := lt_of_lt_of_le hy2 hyp_ge
  have hZH1 : 0 < sunRADec_z d / H := div_pos hz hyp_pos
  have hZH2 : sunRADec_z d / H ≤ 1 := by
    rw [div_le_one hyp_pos]
    linarith
  have hdec_eq : (sunRADec d).2.1 = degrees (Real.arctan (sunRADec_z d / H)) := by
    have h1 : (sunRADec d).2.1 = atan2d (sunRADec_z d) H := by
      simp only [sunRADec, hH]
    rw [h1]
    unfold atan2d atan2
    rw [if_pos hyp_pos]
  have harc1 : 0 < Real.arctan (sunRADec_z d / H) := arctan_pos_of_pos hZH1
  have harc2 : Real.arctan (sunRADec_z d / H) ≤ π / 4 := by
    have := Real.arctan_strictMono.monotone hZH2
    rwa [Real.arctan_one] at this
  have hπ0 : (0:ℝ) < π := Real.pi_pos
  refine ⟨?_, ?_, ?_⟩
  · rw [hdec_eq, show (0:ℝ) = degrees 0 from degrees_zero.symm]
    exact degrees_lt_degrees harc1
  · rw [hdec_eq, show (90:ℝ) = degrees (π/2) from degrees_pi_div_two.symm]
    exact degrees_lt_degrees (by linarith)
  · rw [hdec_eq, cosd_degrees]
    have hcc : Real.cos (π/4) ≤ Real.cos (Real.arctan (sunRADec_z d / H)) :=
      Real.cos_le_cos_of_nonneg_of_le_pi (le_of_lt harc1) (by linarith) harc2
    rw [Real.cos_pi_div_four] at hcc
    have hs2 : (1.4:ℝ) ≤ Real.sqrt 2 := by
      nlinarith [Real.sq_sqrt (show (0:ℝ) ≤ 2 by norm_num), Real.sqrt_nonneg 2]
    linarith

theorem solstice_sin_sdecl (d : ℝ) (hd1 : 150 ≤ d) (hd2 : d ≤ 180) :
    0 < sind (obl_ecl d) * sind ((sunpos d).1) ∧
    sind (obl_ecl d) * sind ((sunpos d).1) ≤ 0.411 := by
  obtain ⟨hso1, hso2, _, _⟩ := solstice_obl d hd1 hd2
  obtain ⟨hlon1, hlon2⟩ := solstice_slon d hd1 hd2
  have hsl1 : 0 < sind ((sunpos d).1) :=
    sind_pos_of_mem (by linarith) (by linarith)
  have hsl2 : sind ((sunpos d).1) ≤ 1 := by
    unfold sind
    exact Real.sin_le_one _
  constructor
  · exact mul_pos hso1 hsl1
  · nlinarith

/-! ### Claim theorems: C6, C8, C9, C10 -/

/-- C6: for every date, longitude and latitude with `cos(lat) ≠ 0` (and in
fact for every threshold and limb flag), `__daylen` returns `0` when its
`cost` is `≥ 1`, `24` when it is `≤ -1`, and `2/15 · arccos(cost)` in
degrees otherwise; the result always lies in `[0, 24]`. -/
theorem C6_daylen_branches_range (y m day : ℕ) (lon lat altit : ℝ) (u : Bool)
    (hlat : cosd lat ≠ 0) :
    ∃ h, daylen y m day lon lat altit u = some h ∧ 0 ≤ h ∧ h ≤ 24 ∧
      (daylen_cost y m day lon lat altit u ≥ 1 → h = 0) ∧
      (daylen_cost y m day lon lat altit u ≤ -1 → h = 24) ∧
      (-1 < daylen_cost y m day lon lat altit u →
        daylen_cost y m day lon lat altit u < 1 →
        h = 2 / 15 * acosd (daylen_cost y m day lon lat altit u)) := by
  obtain ⟨h0, h24⟩ := daylen_hours_mem y m day lon lat altit u
  refine ⟨daylen_hours y m day lon lat altit u,
    daylen_eq y m day lon lat altit u, h0, h24, ?_, ?_, ?_⟩
  · intro hc
    unfold daylen_hours
    rw [if_pos hc]
  · intro hc
    have hn1 : ¬ daylen_cost y m day lon lat altit u ≥ 1 := by
      simp only [ge_iff_le, not_le]
      linarith
    unfold daylen_hours
    rw [if_neg hn1, if_pos hc]
  · intro hc1 hc2
    have hn1 : ¬ daylen_cost y m day lon lat altit u ≥ 1 := by
      simp only [ge_iff_le, not_le]
      linarith
    have hn2 : ¬ daylen_cost y m day lon lat altit u ≤ -1 := by
      simp only [not_le]
      linarith
    unfold daylen_hours
    rw [if_neg hn1, if_neg hn2]

/-- C6 (witness): at 2000-01-01, longitude 0, latitude 0 the hypothesis
`cos(lat) ≠ 0` holds and the conclusion follows. -/
theorem C6_daylen_branches_range_witness :
    cosd 0 ≠ 0 ∧
    ∃ h, daylen 2000 1 1 0 0 (-6) false = some h ∧ 0 ≤ h ∧ h ≤ 24 ∧
      (daylen_cost 2000 1 1 0 0 (-6) false ≥ 1 → h = 0) ∧
      (daylen_cost 2000 1 1 0 0 (-6) false ≤ -1 → h = 24) ∧
      (-1 < daylen_cost 2000 1 1 0 0 (-6) false →
        daylen_cost 2000 1 1 0 0 (-6) false < 1 →
        h = 2 / 15 * acosd (daylen_cost 2000 1 1 0 0 (-6) false)) := by
  have hlat : cosd 0 ≠ 0 := by
    unfold cosd radians
    norm_num
  exact ⟨hlat, C6_daylen_branches_range 2000 1 1 0 0 (-6) false hlat⟩

/-- C8 (counterexample): the claim quantifies over every real day count
`d`, but at `d = 1.4·10¹⁰` the argument of perihelion `w` has grown so
large that the single conditional subtraction of 360 in `__sunpos` leaves
a longitude greater than 360: it is neither in `[0, 360)` nor equal to
the full reduction `__revolution(v + w)`. -/
theorem C8_sunpos_lon_cex :
    360 < (sunpos 14000000000).1 ∧
    (sunpos 14000000000).1 ≠
      revolution (sunpos_v 14000000000 + sunpos_w 14000000000) := by
  have hv : -180 < sunpos_v 14000000000 :=
    (atan2d_mem (sunpos_y 14000000000) (sunpos_x 14000000000)).1
  have hw : sunpos_w 14000000000 = 282.9404 + 4.70935e-5 * 14000000000 := rfl
  have hwval : sunpos_w 14000000000 = 659591.9404 := by
    rw [hw]
    norm_num
  have hge : sunpos_v 14000000000 + sunpos_w 14000000000 ≥ 360 := by
    rw [hwval] at *
    linarith
  have hval : (sunpos 14000000000).1
      = sunpos_v 14000000000 + sunpos_w 14000000000 - 360 := by
    simp only [sunpos]
    rw [if_pos hge]
  have hgt : 360 < (sunpos 14000000000).1 := by
    rw [hval, hwval]
    linarith
  refine ⟨hgt, fun heq => ?_⟩
  have hrev := (revolution_mem (sunpos_v 14000000000 + sunpos_w 14000000000)).2
  rw [heq] at hgt
  linarith

/-- C8 (amended): for day counts `d ∈ [-2·10⁶, 5·10⁶]` — which covers
every date the module supports — the true-longitude component of
`__sunpos` equals the full reduction of `v + w` to `[0, 360)` and hence
lies in `[0, 360)`; the original claim's quantification over every real
`d` fails (see the counterexample). -/
theorem C8_sunpos_lon_amended (d : ℝ) (h1 : -2000000 ≤ d) (h2 : d ≤ 5000000) :
    (sunpos d).1 = revolution (sunpos_v d + sunpos_w d) ∧
    0 ≤ (sunpos d).1 ∧ (sunpos d).1 < 360 := by
  obtain ⟨hv1, hv2⟩ := atan2d_mem (sunpos_y d) (sunpos_x d)
  have hv1' : -180 < sunpos_v d := hv1
  have hv2' : sunpos_v d ≤ 180 := hv2
  have hw1 : 188 ≤ sunpos_w d := by
    unfold sunpos_w
    nlinarith
  have hw2 : sunpos_w d ≤ 519 := by
    unfold sunpos_w
    nlinarith
  by_cases hc : sunpos_v d + sunpos_w d ≥ 360
  · have hval : (sunpos d).1 = sunpos_v d + sunpos_w d - 360 := by
      simp only [sunpos]
      rw [if_pos hc]
    have hc' : (360 : ℝ) ≤ sunpos_v d + sunpos_w d := hc
    rw [hval, revolution_eq_sub hc' (by linarith)]
    exact ⟨rfl, by linarith, by linarith⟩
  · have hval : (sunpos d).1 = sunpos_v d + sunpos_w d := by
      simp only [sunpos]
      rw [if_neg hc]
    have hlt : sunpos_v d + sunpos_w d < 360 := lt_of_not_ge hc
    rw [hval, revolution_eq_self (by linarith) hlt]
    exact ⟨rfl, by linarith, hlt⟩

/-- C8 (witness): the amended statement applied at `d = 0`. -/
theorem C8_sunpos_lon_amended_witness :
    (-2000000 ≤ (0:ℝ) ∧ (0:ℝ) ≤ 5000000) ∧
    ((sunpos 0).1 = revolution (sunpos_v 0 + sunpos_w 0) ∧
      0 ≤ (sunpos 0).1 ∧ (sunpos 0).1 < 360) :=
  ⟨⟨by norm_num, by norm_num⟩,
    C8_sunpos_lon_amended 0 (by norm_num) (by norm_num)⟩

/-- C9: `__sunriset` always produces a pair `(rise, set)` with
`rise ≤ set`, `set - rise = 2t ≤ 24`, whose midpoint is the transit hour
`tsouth ∈ (0, 24]`; consequently `rise ∈ (-12, 24]` and `set ∈ (0, 36]`. -/
theorem C9_sunriset_pair_shape (y m day : ℕ) (lon lat altit : ℝ) (u : Bool) :
    ∃ rise sett,
      sunriset y m day lon lat altit u = some (rise, sett) ∧
      rise ≤ sett ∧
      sett - rise = 2 * sunriset_t y m day lon lat altit u ∧
      sett - rise ≤ 24 ∧
      (rise + sett) / 2 = tsouth y m day lon ∧
      0 < tsouth y m day lon ∧ tsouth y m day lon ≤ 24 ∧
      -12 < rise ∧ rise ≤ 24 ∧ 0 < sett ∧ sett ≤ 36 := by
  obtain ⟨ht0, ht12⟩ := sunriset_t_mem y m day lon lat altit u
  obtain ⟨hs0, hs24⟩ := tsouth_mem y m day lon
  exact ⟨tsouth y m day lon - sunriset_t y m day lon lat altit u,
    tsouth y m day lon + sunriset_t y m day lon lat altit u,
    sunriset_eq y m day lon lat altit u, by linarith, by ring, by linarith,
    by ring, hs0, hs24, by linarith, by linarith, by linarith, by linarith⟩

/-- C10: `__get_max_solar_flux` is always nonnegative; it returns exactly
0 when the declination-derived flux `fSF` is negative, and also whenever
the quartic attenuation polynomial makes the attenuated flux
`fSF * fCoeff` negative. -/
theorem C10_flux_nonneg_clamped (latitude : ℝ) (year month day : ℕ) :
    0 ≤ get_max_solar_flux latitude year month day ∧
    (flux_fSF latitude year month day < 0 →
      get_max_solar_flux latitude year month day = 0) ∧
    (0 ≤ flux_fSF latitude year month day →
      flux_fSF latitude year month day
          * flux_coeff (flux_fSF latitude year month day) < 0 →
      get_max_solar_flux latitude year month day = 0) := by
  refine ⟨?_, ?_, ?_⟩
  · unfold get_max_solar_flux
    split_ifs with h
    · exact le_refl 0
    · exact le_of_not_lt h
  · intro hneg
    have hT : flux_fSFT latitude year month day = 0 := by
      unfold flux_fSFT flux_fCoeff
      rw [if_pos hneg, mul_zero]
    unfold get_max_solar_flux
    rw [hT]
    norm_num
  · intro h1 h2
    have hT : flux_fSFT latitude year month day
        = flux_fSF latitude year month day
          * flux_coeff (flux_fSF latitude year month day) := by
      unfold flux_fSFT flux_fCoeff
      rw [if_neg (not_lt.mpr h1)]
    unfold get_max_solar_flux
    rw [hT, if_pos h2]

/-! ### Dawn-ordering machinery (C3) -/

/-- A normal diurnal-arc crossing: the hour-angle cosine lies strictly
inside `(-1, 1)`, so the arc is strictly between 0 and 12 hours. -/
def normalArc (y m day : ℕ) (lon lat altit : ℝ) (u : Bool) : Prop :=
  -1 < sunriset_cost y m day lon lat altit u ∧
    sunriset_cost y m day lon lat altit u < 1

theorem altitEff_false (y m day : ℕ) (lon a : ℝ) :
    altitEff y m day lon a false = a := by
  unfold altitEff
  simp

theorem altitEff_true (y m day : ℕ) (lon a : ℝ) :
    altitEff y m day lon a true = a - sradius y m day lon := by
  unfold altitEff
  simp

theorem sradius_eq (y m day : ℕ) (lon : ℝ) :
    sradius y m day lon = 0.2666 / sunpos_r (noonDays y m day lon) := by
  unfold sradius
  simp only [sunRADec]

theorem sradius_bounds (y m day : ℕ) (lon : ℝ)
    (h1 : -1000000 ≤ noonDays y m day lon)
    (h2 : noonDays y m day lon ≤ 1000000) :
    0.2 ≤ sradius y m day lon ∧ sradius y m day lon ≤ 0.28 := by
  obtain ⟨he1, he2⟩ := sunpos_e_bounds h1 h2
  obtain ⟨hr1, hr2⟩ := sunpos_r_bounds he1 he2
  rw [sradius_eq]
  have hrpos : (0:ℝ) < sunpos_r (noonDays y m day lon) := by linarith
  constructor
  · rw [le_div_iff hrpos]
    nlinarith
  · rw [div_le_iff hrpos]
    nlinarith

theorem sunriset_cost_le (y m day : ℕ) (lon lat : ℝ) {a1 a2 : ℝ} {u1 u2 : Bool}
    (hnum : sind (altitEff y m day lon a1 u1) ≤ sind (altitEff y m day lon a2 u2))
    (hD : 0 ≤ cosd lat * cosd (sdecl y m day lon)) :
    sunriset_cost y m day lon lat a1 u1 ≤ sunriset_cost y m day lon lat a2 u2 := by
  unfold sunriset_cost
  rcases eq_or_lt_of_le hD with heq | hpos
  · rw [← heq, div_zero, div_zero]
  · exact (div_le_div_right hpos).mpr (by linarith)

theorem sunriset_cost_lt (y m day : ℕ) (lon lat : ℝ) {a1 a2 : ℝ} {u1 u2 : Bool}
    (hnum : sind (altitEff y m day lon a1 u1) < sind (altitEff y m day lon a2 u2))
    (hD : 0 < cosd lat * cosd (sdecl y m day lon)) :
    sunriset_cost y m day lon lat a1 u1 < sunriset_cost y m day lon lat a2 u2 := by
  unfold sunriset_cost
  exact (div_lt_div_right hD).mpr (by linarith)

theorem acosd_le_acosd {a b : ℝ} (ha : -1 ≤ a) (hb : b ≤ 1) (hab : a ≤ b) :
    acosd b ≤ acosd a := by
  unfold acosd
  exact degrees_le_degrees
    (Real.strictAntiOn_arccos.antitoneOn
      (Set.mem_Icc.mpr ⟨ha, le_trans hab hb⟩)
      (Set.mem_Icc.mpr ⟨le_trans ha hab, hb⟩) hab)

theorem acosd_lt_acosd {a b : ℝ} (ha : -1 ≤ a) (hb : b ≤ 1) (hab : a < b) :
    acosd b < acosd a := by
  unfold acosd
  exact degrees_lt_degrees
    (Real.strictAntiOn_arccos
      (Set.mem_Icc.mpr ⟨ha, le_trans (le_of_lt hab) hb⟩)
      (Set.mem_Icc.mpr ⟨le_trans ha (le_of_lt hab), hb⟩) hab)

theorem sunriset_t_ordered (y m day : ℕ) (lon lat : ℝ) {a1 a2 : ℝ} {u1 u2 : Bool}
    (h1 : normalArc y m day lon lat a1 u1) (h2 : normalArc y m day lon lat a2 u2)
    (hc : sunriset_cost y m day lon lat a1 u1 ≤ sunriset_cost y m day lon lat a2 u2) :
    sunriset_t y m day lon lat a2 u2 ≤ sunriset_t y m day lon lat a1 u1 := by
  obtain ⟨h1a, h1b⟩ := h1
  obtain ⟨h2a, h2b⟩ := h2
  have e1 : sunriset_t y m day lon lat a1 u1
      = acosd (sunriset_cost y m day lon lat a1 u1) / 15 := by
    unfold sunriset_t
    rw [if_neg (by simp only [ge_iff_le, not_le]; linarith),
        if_neg (by simp only [not_le]; linarith)]
  have e2 : sunriset_t y m day lon lat a2 u2
      = acosd (sunriset_cost y m day lon lat a2 u2) / 15 := by
    unfold sunriset_t
    rw [if_neg (by simp only [ge_iff_le, not_le]; linarith),
        if_neg (by simp only [not_le]; linarith)]
  rw [e1, e2]
  have := acosd_le_acosd (le_of_lt h1a) (le_of_lt h2b) hc
  linarith

theorem sunriset_t_ordered_strict (y m day : ℕ) (lon lat : ℝ) {a1 a2 : ℝ}
    {u1 u2 : Bool}
    (h1 : normalArc y m day lon lat a1 u1) (h2 : normalArc y m day lon lat a2 u2)
    (hc : sunriset_cost y m day lon lat a1 u1 < sunriset_cost y m day lon lat a2 u2) :
    sunriset_t y m day lon lat a2 u2 < sunriset_t y m day lon lat a1 u1 := by
  obtain ⟨h1a, h1b⟩ := h1
  obtain ⟨h2a, h2b⟩ := h2
  have e1 : sunriset_t y m day lon lat a1 u1
      = acosd (sunriset_cost y m day lon lat a1 u1) / 15 := by
    unfold sunriset_t
    rw [if_neg (by simp only [ge_iff_le, not_le]; linarith),
        if_neg (by simp only [not_le]; linarith)]
  have e2 : sunriset_t y m day lon lat a2 u2
      = acosd (sunriset_cost y m day lon lat a2 u2) / 15 := by
    unfold sunriset_t
    rw [if_neg (by simp only [ge_iff_le, not_le]; linarith),
        if_neg (by simp only [not_le]; linarith)]
  rw [e1, e2]
  have := acosd_lt_acosd (le_of_lt h1a) (le_of_lt h2b) hc
  linarith

theorem noonDays_20000621 : noonDays 2000 6 21 0 = 173.5 := by
  unfold noonDays
  rw [show daysSince2000Jan0 2000 6 21 = 173 from by decide]
  norm_num

theorem sdecl_20000621 : sdecl 2000 6 21 0 = (sunRADec (173.5:ℝ)).2.1 := by
  unfold sdecl
  rw [noonDays_20000621]

theorem sind_zero : sind 0 = 0 := by
  unfold sind radians
  norm_num

theorem cosd_zero : cosd 0 = 1 := by
  unfold cosd radians
  norm_num

/-- At the 2000 June solstice, equator and prime meridian, any altitude
threshold that effectively lies in `[-20, 0]` degrees gives a normal
crossing. -/
theorem normalArc_solstice {a : ℝ} {u : Bool}
    (h1 : -20 ≤ altitEff 2000 6 21 0 a u) (h2 : altitEff 2000 6 21 0 a u ≤ 0) :
    normalArc 2000 6 21 0 0 a u := by
  obtain ⟨hdec1, hdec2, hcd⟩ := solstice_dec 173.5 (by norm_num) (by norm_num)
  have hlow : -(0.35:ℝ) ≤ sind (altitEff 2000 6 21 0 a u) := by
    have h := neg_radians_le_sind (a := altitEff 2000 6 21 0 a u) h2
    have hπ2 : π < 3.15 := Real.pi_lt_d2
    have hπ0 : (0:ℝ) < π := Real.pi_pos
    unfold radians at h
    nlinarith
  have hhigh : sind (altitEff 2000 6 21 0 a u) ≤ 0 := by
    have h := sind_le_sind (a := altitEff 2000 6 21 0 a u) (b := 0)
      (by linarith) (by norm_num) h2
    rwa [sind_zero] at h
  unfold normalArc sunriset_cost
  rw [sdecl_20000621, sind_zero, cosd_zero]
  simp only [zero_mul, sub_zero, one_mul]
  have hc : (0:ℝ) < cosd ((sunRADec (173.5:ℝ)).2.1) := by linarith
  constructor
  · rw [lt_div_iff hc]
    nlinarith
  · rw [div_lt_one hc]
    linarith

theorem normalArc_all_20000621 :
    normalArc 2000 6 21 0 0 (-35/60) true ∧ normalArc 2000 6 21 0 0 (-6) false ∧
    normalArc 2000 6 21 0 0 (-12) false ∧ normalArc 2000 6 21 0 0 (-18) false := by
  have hd1 : -1000000 ≤ noonDays 2000 6 21 0 := by
    rw [noonDays_20000621]
    norm_num
  have hd2 : noonDays 2000 6 21 0 ≤ 1000000 := by
    rw [noonDays_20000621]
    norm_num
  obtain ⟨hs1, hs2⟩ := sradius_bounds 2000 6 21 0 hd1 hd2
  refine ⟨?_, ?_, ?_, ?_⟩
  · apply normalArc_solstice
    · rw [altitEff_true]
      linarith
    · rw [altitEff_true]
      linarith
  · apply normalArc_solstice <;> rw [altitEff_false] <;> norm_num
  · apply normalArc_solstice <;> rw [altitEff_false] <;> norm_num
  · apply normalArc_solstice <;> rw [altitEff_false] <;> norm_num

/-! ### Claim theorems: C3, C4, C5 -/

/-- C3 (counterexample): at 2000-06-21, longitude 0, latitude 0 all four
thresholds produce normal crossings, yet the nautical dawn is strictly
earlier than the civil dawn — the claimed chain `civil ≤ nautical`
fails (the claim's ordering is reversed). -/
theorem C3_twilight_dawn_order_cex :
    (normalArc 2000 6 21 0 0 (-35/60) true ∧ normalArc 2000 6 21 0 0 (-6) false ∧
     normalArc 2000 6 21 0 0 (-12) false ∧ normalArc 2000 6 21 0 0 (-18) false) ∧
    ∃ rc sc rn sn,
      civilTwilight 2000 6 21 0 0 = some (rc, sc) ∧
      nauticalTwilight 2000 6 21 0 0 = some (rn, sn) ∧
      rn < rc := by
  obtain ⟨hR, hC, hN, hA⟩ := normalArc_all_20000621
  refine ⟨⟨hR, hC, hN, hA⟩,
    tsouth 2000 6 21 0 - sunriset_t 2000 6 21 0 0 (-6) false,
    tsouth 2000 6 21 0 + sunriset_t 2000 6 21 0 0 (-6) false,
    tsouth 2000 6 21 0 - sunriset_t 2000 6 21 0 0 (-12) false,
    tsouth 2000 6 21 0 + sunriset_t 2000 6 21 0 0 (-12) false,
    sunriset_eq 2000 6 21 0 0 (-6) false,
    sunriset_eq 2000 6 21 0 0 (-12) false, ?_⟩
  have hD : 0 < cosd 0 * cosd (sdecl 2000 6 21 0) := by
    rw [cosd_zero, one_mul, sdecl_20000621]
    obtain ⟨_, _, hcd⟩ := solstice_dec 173.5 (by norm_num) (by norm_num)
    linarith
  have hnum : sind (altitEff 2000 6 21 0 (-12) false)
      < sind (altitEff 2000 6 21 0 (-6) false) := by
    rw [altitEff_false, altitEff_false]
    exact sind_lt_sind (by norm_num) (by norm_num) (by norm_num)
  have hcc := sunriset_cost_lt 2000 6 21 0 0 hnum hD
  have := sunriset_t_ordered_strict 2000 6 21 0 0 hN hC hcc
  linarith

/-- C3 (amended): the dawn chain holds in the reverse of the claimed
order.  For every date and location with latitude in `[-90, 90]` and day
count within `[-10⁶, 10⁶]` (all supported dates), whenever all four
thresholds produce normal crossings the first components satisfy
astronomical ≤ nautical ≤ civil ≤ sunrise: each deeper threshold is
crossed earlier. -/
theorem C3_twilight_dawn_order_amended (y m day : ℕ) (lon lat : ℝ)
    (hlat1 : -90 ≤ lat) (hlat2 : lat ≤ 90)
    (hd1 : -1000000 ≤ noonDays y m day lon)
    (hd2 : noonDays y m day lon ≤ 1000000)
    (hR : normalArc y m day lon lat (-35/60) true)
    (hC : normalArc y m day lon lat (-6) false)
    (hN : normalArc y m day lon lat (-12) false)
    (hA : normalArc y m day lon lat (-18) false) :
    ∃ ra sa rn sn rc sc rr sr2,
      astronomicalTwilight y m day lon lat = some (ra, sa) ∧
      nauticalTwilight y m day lon lat = some (rn, sn) ∧
      civilTwilight y m day lon lat = some (rc, sc) ∧
      sunRiseSet y m day lon lat = some (rr, sr2) ∧
      ra ≤ rn ∧ rn ≤ rc ∧ rc ≤ rr := by
  have hD : 0 ≤ cosd lat * cosd (sdecl y m day lon) := by
    apply mul_nonneg (cosd_nonneg_of_mem hlat1 hlat2)
    unfold sdecl
    exact cosd_sdecl_nonneg _
  obtain ⟨hs1, hs2⟩ := sradius_bounds y m day lon hd1 hd2
  have hnum1 : sind (altitEff y m day lon (-18) false)
      ≤ sind (altitEff y m day lon (-12) false) := by
    rw [altitEff_false, altitEff_false]
    exact sind_le_sind (by norm_num) (by norm_num) (by norm_num)
  have hnum2 : sind (altitEff y m day lon (-12) false)
      ≤ sind (altitEff y m day lon (-6) false) := by
    rw [altitEff_false, altitEff_false]
    exact sind_le_sind (by norm_num) (by norm_num) (by norm_num)
  have hnum3 : sind (altitEff y m day lon (-6) false)
      ≤ sind (altitEff y m day lon (-35/60) true) := by
    rw [altitEff_false, altitEff_true]
    exact sind_le_sind (by norm_num) (by linarith) (by linarith)
  have hc1 := sunriset_cost_le y m day lon lat hnum1 hD
  have hc2 := sunriset_cost_le y m day lon lat hnum2 hD
  have hc3 := sunriset_cost_le y m day lon lat hnum3 hD
  have ht1 := sunriset_t_ordered y m day lon lat hA hN hc1
  have ht2 := sunriset_t_ordered y m day lon lat hN hC hc2
  have ht3 := sunriset_t_ordered y m day lon lat hC hR hc3
  exact ⟨tsouth y m day lon - sunriset_t y m day lon lat (-18) false,
    tsouth y m day lon + sunriset_t y m day lon lat (-18) false,
    tsouth y m day lon - sunriset_t y m day lon lat (-12) false,
    tsouth y m day lon + sunriset_t y m day lon lat (-12) false,
    tsouth y m day lon - sunriset_t y m day lon lat (-6) false,
    tsouth y m day lon + sunriset_t y m day lon lat (-6) false,
    tsouth y m day lon - sunriset_t y m day lon lat (-35/60) true,
    tsouth y m day lon + sunriset_t y m day lon lat (-35/60) true,
    sunriset_eq y m day lon lat (-18) false,
    sunriset_eq y m day lon lat (-12) false,
    sunriset_eq y m day lon lat (-6) false,
    sunriset_eq y m day lon lat (-35/60) true,
    by linarith, by linarith, by linarith⟩

/-- C3 (witness): the amended ordering at 2000-06-21, longitude 0,
latitude 0, where all hypotheses are established concretely. -/
theorem C3_twilight_dawn_order_amended_witness :
    ((-90 ≤ (0:ℝ) ∧ (0:ℝ) ≤ 90) ∧
     (-1000000 ≤ noonDays 2000 6 21 0 ∧ noonDays 2000 6 21 0 ≤ 1000000) ∧
     (normalArc 2000 6 21 0 0 (-35/60) true ∧ normalArc 2000 6 21 0 0 (-6) false ∧
      normalArc 2000 6 21 0 0 (-12) false ∧ normalArc 2000 6 21 0 0 (-18) false)) ∧
    (∃ ra sa rn sn rc sc rr sr2,
      astronomicalTwilight 2000 6 21 0 0 = some (ra, sa) ∧
      nauticalTwilight 2000 6 21 0 0 = some (rn, sn) ∧
      civilTwilight 2000 6 21 0 0 = some (rc, sc) ∧
      sunRiseSet 2000 6 21 0 0 = some (rr, sr2) ∧
      ra ≤ rn ∧ rn ≤ rc ∧ rc ≤ rr) := by
  obtain ⟨hR, hC, hN, hA⟩ := normalArc_all_20000621
  have hd1 : -1000000 ≤ noonDays 2000 6 21 0 := by
    rw [noonDays_20000621]
    norm_num
  have hd2 : noonDays 2000 6 21 0 ≤ 1000000 := by
    rw [noonDays_20000621]
    norm_num
  exact ⟨⟨⟨by norm_num, by norm_num⟩, ⟨hd1, hd2⟩, hR, hC, hN, hA⟩,
    C3_twilight_dawn_order_amended 2000 6 21 0 0 (by norm_num) (by norm_num)
      hd1 hd2 hR hC hN hA⟩

/-- C4 (counterexample): at latitude -90 and date 2000-06-21 (declination
positive), `__solar_altitude` reflects `90 - (-90) + dec > 90` to
`180 - (180 + dec) = -dec < 0`, so the result is negative — outside the
claimed range `[0, 180]` (the `< 0` clamp is applied before the
reflection, never after it). -/
theorem C4_solar_altitude_cex : solar_altitude (-90) 2000 6 21 < 0 := by
  have hcast : ((daysSince2000Jan0 2000 6 21 : ℤ) : ℝ) = 173 := by
    rw [show daysSince2000Jan0 2000 6 21 = 173 from by decide]
    norm_num
  obtain ⟨hdec1, hdec2, _⟩ := solstice_dec 173 (by norm_num) (by norm_num)
  unfold solar_altitude
  rw [hcast, if_pos (by linarith)]
  linarith

/-- C4 (amended): for latitudes in `[-90, 90]`, `__solar_altitude`
returns a value in `[-90, 90]` (not `[0, 180]`): it computes
`90 - latitude + declination`, returns `180` minus that value when it
exceeds 90 — which can be negative, since the `< 0` clamp is not applied
to the reflected value — returns 0 when the unreflected value is below 0,
and otherwise returns it unchanged. -/
theorem C4_solar_altitude_amended (latitude : ℝ) (y m day : ℕ)
    (h1 : -90 ≤ latitude) (h2 : latitude ≤ 90) :
    -90 ≤ solar_altitude latitude y m day ∧
      solar_altitude latitude y m day ≤ 90 := by
  obtain ⟨hd1, hd2⟩ := sunRADec_dec_mem ((daysSince2000Jan0 y m day : ℤ) : ℝ)
  unfold solar_altitude
  split_ifs with hA hB
  · constructor <;> linarith
  · constructor <;> norm_num
  · push_neg at hA hB
    constructor <;> linarith

/-- C4 (witness): the amended statement applied at latitude 0,
date 2000-01-01. -/
theorem C4_solar_altitude_amended_witness :
    (-90 ≤ (0:ℝ) ∧ (0:ℝ) ≤ 90) ∧
    (-90 ≤ solar_altitude 0 2000 1 1 ∧ solar_altitude 0 2000 1 1 ≤ 90) :=
  ⟨⟨by norm_num, by norm_num⟩,
    C4_solar_altitude_amended 0 2000 1 1 (by norm_num) (by norm_num)⟩

/-- C5: whenever the hour-angle denominators of `__sunriset` and
`__daylen` are nonzero, `__acosd` is only ever invoked with an argument
strictly inside `(-1, 1)` — the `cost ≥ 1` and `cost ≤ -1` branches are
taken otherwise — so the `math.acos` domain error is unreachable and both
solvers return a value. -/
theorem C5_acos_domain_safe (y m day : ℕ) (lon lat altit : ℝ) (u : Bool)
    (h1 : cosd lat * cosd (sdecl y m day lon) ≠ 0)
    (h2 : cosd lat * daylen_cos_sdecl y m day lon ≠ 0) :
    (sunriset y m day lon lat altit u).isSome = true ∧
    (daylen y m day lon lat altit u).isSome = true := by
  rw [sunriset_eq y m day lon lat altit u, daylen_eq y m day lon lat altit u]
  exact ⟨rfl, rfl⟩

/-- C5 (witness): at 2000-06-21, longitude 0, latitude 0, threshold
-6 degrees, both denominators are provably nonzero. -/
theorem C5_acos_domain_safe_witness :
    ((cosd 0 * cosd (sdecl 2000 6 21 0) ≠ 0) ∧
     (cosd 0 * daylen_cos_sdecl 2000 6 21 0 ≠ 0)) ∧
    ((sunriset 2000 6 21 0 0 (-6) false).isSome = true ∧
     (daylen 2000 6 21 0 0 (-6) false).isSome = true) := by
  obtain ⟨_, _, hcd⟩ := solstice_dec 173.5 (by norm_num) (by norm_num)
  have hA : cosd 0 * cosd (sdecl 2000 6 21 0) ≠ 0 := by
    rw [cosd_zero, one_mul, sdecl_20000621]
    exact ne_of_gt (by linarith)
  have hB : cosd 0 * daylen_cos_sdecl 2000 6 21 0 ≠ 0 := by
    rw [cosd_zero, one_mul]
    unfold daylen_cos_sdecl daylen_sin_sdecl
    rw [noonDays_20000621]
    obtain ⟨hs1, hs2⟩ := solstice_sin_sdecl 173.5 (by norm_num) (by norm_num)
    exact ne_of_gt (Real.sqrt_pos.mpr (by nlinarith))
  exact ⟨⟨hA, hB⟩, C5_acos_domain_safe 2000 6 21 0 0 (-6) false hA hB⟩

end Sun
